import Mathlib

/-!
Verification development for the `ioc` dependency-injection container
(package `ioc`: `container.go` / `binding.go` and the unnamed parts,
with the `Container` of `src/unnamed/part_003` being the current revision
that matches `binding.go`'s `newBinding(name, factory, shared...)`).

The Go code is reflection-based.  We embed it shallowly over a small
concrete universe of Go types (`Ty`) and runtime values (`Val`) that is
rich enough for every scenario the claims need, together with concrete
`Implements` / `AssignableTo` relations that follow Go's assignability
rules on that universe.  Go maps become association lists (deterministic
insertion-order iteration, a stand-in for Go's unspecified map order),
`reflect.Value` becomes `Val` (the model only ever stores valid values,
so `IsValid` is constantly true), mutation of a `*Container` becomes
explicit state passing, and the unbounded recursion of the resolution
algorithm is made total with a fuel parameter: every operation of the
engine consumes fuel, and `Res.div` means the fuel ran out.  A result of
`.div` for every fuel is exactly a nonterminating (stack-overflowing)
Go execution.  Go `panic`s arising inside `reflect` are modelled by
`POr.panic` on the registration path, where they can actually occur.
-/

set_option autoImplicit false

namespace Ioc

/-! ## The universe of Go types used by the model

`int` and `defInt` are distinct named (defined) types, so they are not
mutually assignable; `sliceInt` models the unnamed composite type
`[]int` and `defSliceInt` a defined type with that underlying type
(for example `type IntSlice []int`), so each is assignable to the
other; `iface i` are interface types, `impl i` named concrete
non-struct types where `impl i` implements exactly `iface i`;
`strct i` are struct types whose fields are given by `structFields`;
`ptr t` is `*t`; `errIface` is the `error` interface type. -/

inductive Ty : Type where
  | int : Ty
  | defInt : Ty
  | sliceInt : Ty
  | defSliceInt : Ty
  | iface : Nat → Ty
  | impl : Nat → Ty
  | strct : Nat → Ty
  | ptr : Ty → Ty
  | errIface : Ty
deriving DecidableEq, Repr

/-- `reflect.Kind() == reflect.Interface` on the model universe. -/
def Ty.kindIsInterface : Ty → Bool
  | .iface _ => true
  | .errIface => true
  | _ => false

/-- `reflect.Kind() == reflect.Struct` on the model universe. -/
def Ty.kindIsStruct : Ty → Bool
  | .strct _ => true
  | _ => false

/-- `reflect.Kind() == reflect.Pointer` on the model universe. -/
def Ty.kindIsPointer : Ty → Bool
  | .ptr _ => true
  | _ => false

/-- `t.Implements(u)` for the model universe: `impl i` implements
`iface i` and nothing else; an interface trivially implements itself
(superset method set). -/
def implementsB : Ty → Ty → Bool
  | .impl i, .iface j => i == j
  | .iface i, .iface j => i == j
  | _, _ => false

/-- `v.AssignableTo(t)` following Go's assignability rules on the model
universe: identical types; identical underlying types with at least one
of the two not a named type (the `sliceInt` / `defSliceInt` pair — note
`int` / `defInt` are both named, hence not assignable); or `t` an
interface type implemented by `v`. -/
def assignableToB (v t : Ty) : Bool :=
  v == t || (t.kindIsInterface && implementsB v t) ||
    (match v, t with
     | .sliceInt, .defSliceInt => true
     | .defSliceInt, .sliceInt => true
     | _, _ => false)

/-! ## Struct shapes

A struct field as the reflection API sees it: its declared type, the
result of `field.Tag.Lookup("ioc")` (`none` when the `ioc` tag key is
absent), and whether `reflect` can set it (`CanSet`, i.e. the field is
exported and addressable). -/

structure FieldSpec : Type where
  ty : Ty
  tag : Option String
  canSet : Bool
deriving DecidableEq, Repr

/-- Field tables of the struct types in the model universe (the fields
declared by the user structs the scenarios use; fields are themselves
non-struct types):
`strct 0` has no fields; `strct 1` has one exported untagged field of
interface type `iface 1`; `strct 2` has one unexported untagged `int`
field; `strct 3` has one exported field of type `iface 1` tagged
`ioc:"primary"`; everything else is empty. -/
def structFields : Nat → List FieldSpec
  | 0 => []
  | 1 => [⟨.iface 1, none, true⟩]
  | 2 => [⟨.int, none, false⟩]
  | 3 => [⟨.iface 1, some ("primary"), true⟩]
  | _ => []

/-! ## Runtime values (`reflect.Value`) -/

/-- A (valid) `reflect.Value` of the model: `prim t n` is a value of
non-struct type `t` with payload `n` (payloads distinguish values of
the same type), `strctV i fields` a struct value of type `strct i`,
`ptrV v` a pointer to `v`, and `goErr e` a value of the `error`
interface type (`none` being the nil error). -/
inductive Val : Type where
  | prim : Ty → Nat → Val
  | strctV : Nat → List Val → Val
  | ptrV : Val → Val
  | goErr : Option Nat → Val

/-- The runtime type of a value (`reflect.TypeOf` / `Value.Type`). -/
def Val.typeOf : Val → Ty
  | .prim t _ => t
  | .strctV i _ => .strct i
  | .ptrV v => .ptr v.typeOf
  | .goErr _ => .errIface

/-- `Value.IsValid`: the model only ever stores values obtained from
`reflect.ValueOf` of non-nil inputs, so every modelled value is valid;
the invalid `reflect.Value{}` zero only occurs paired with a non-nil
error, which the embedding represents as the error outcome itself. -/
def Val.isValid : Val → Bool := fun _ => true

/-- The `.Interface().(error)` view of a value: the error payload of an
error-interface value (`none` = nil error).  Only reachable for values
of error type. -/
def Val.asError : Val → Option Nat
  | .goErr e => e
  | _ => none

/-- `reflect.Zero` composed over the field table: the zero value of a
type.  Struct fields in the model universe are themselves non-struct
types, so zeroing is flat. -/
def zeroVal : Ty → Val
  | .strct i => .strctV i ((structFields i).map (fun fs => Val.prim fs.ty 0))
  | t => .prim t 0

/-- Number of `ptrV` wrappers (how many times `for v.Kind() == Ptr`
would dereference). -/
def ptrDepth : Val → Nat
  | .ptrV v => ptrDepth v + 1
  | _ => 0

/-- Full dereference: `for v.Kind() == reflect.Ptr { v = v.Elem() }`. -/
def stripPtr : Val → Val
  | .ptrV v => stripPtr v
  | v => v

/-- Re-apply `d` pointer wrappers; together with `stripPtr` this models
that field mutation through a pointer is visible at the pointer. -/
def wrapPtr : Nat → Val → Val
  | 0, v => v
  | d + 1, v => .ptrV (wrapPtr d v)

/-! ## Functions and arbitrary inputs -/

/-- A Go function value together with its reflected signature:
`params` are `Type.In(0..NumIn)`, `rets` are `Type.Out(0..NumOut)`,
`run` is `Value.Call` (pure in the model). -/
structure GoFunc : Type where
  params : List Ty
  rets : List Ty
  run : List Val → List Val

/-- An `any` argument as passed to `Factory` / `Invoke`: either a
function value or some non-function value. -/
inductive GoAny : Type where
  | fn : GoFunc → GoAny
  | val : Val → GoAny

/-! ## Errors and panics -/

/-- The error values the package can return (see `binding.go` and
`container.go`): `notFactory` is `errNotFactory`, `invalidFactory` is
`errInvalidFactory`, `circularReference` is `errCircularReference`,
`valueNotFound` is `ErrValueNotFound`, `mustStruct` the "must given a
struct" error of `resolve`, `cannotSet` the "cannot make field" error,
`invalidValue t` the "value not found for type" error, `factoryErr n`
a non-nil error returned by a factory itself, and `notFunc` the
"Out of non-func type" error of `Invoke`. -/
inductive Err : Type where
  | notFactory : Err
  | invalidFactory : Err
  | circularReference : Err
  | valueNotFound : Err
  | mustStruct : Err
  | cannotSet : Err
  | invalidValue : Ty → Err
  | factoryErr : Nat → Err
  | notFunc : Err
deriving DecidableEq, Repr

/-- Outcome of Go code that can `panic` (used on the registration path,
where `reflect.Type.Implements` can be handed a nil type). -/
inductive POr (α : Type) : Type where
  | panic : String → POr α
  | ok : α → POr α

/-! ## Association-list maps (Go `map` with deterministic iteration) -/

/-- First value bound to `key`, like a Go map read. -/
def findM {κ ν : Type} [DecidableEq κ] : List (κ × ν) → κ → Option ν
  | [], _ => none
  | (k, v) :: rest, key => if k = key then some v else findM rest key

/-- Write `key := v`, replacing in place (Go map write). -/
def insertM {κ ν : Type} [DecidableEq κ] : List (κ × ν) → κ → ν → List (κ × ν)
  | [], key, v => [(key, v)]
  | (k, w) :: rest, key, v =>
    if k = key then (key, v) :: rest else (k, w) :: insertM rest key v

/-! ## The binding (`binding.go`) -/

/-- `type binding struct` of `binding.go`: the registration name, the
abstract type `typ` the factory produces (`rt.Out(0)`), the factory
function value, and the `shared` flag. -/
structure Binding : Type where
  name : String
  typ : Ty
  factory : GoFunc
  shared : Bool

/-- `errorType = reflect.TypeOf(error(nil))` of `binding.go`: converting
the nil `error` interface value to `any` yields the nil interface, so
`reflect.TypeOf` returns the nil `reflect.Type` — modelled as `none`. -/
def errorType : Option Ty := none

/-- `t.Implements(u)` where `u` is a possibly-nil `reflect.Type`:
the real `reflect` package panics when handed a nil type. -/
def typeImplements (t : Ty) (u : Option Ty) : POr Bool :=
  match u with
  | none => .panic ("reflect: nil type passed to Type.Implements")
  | some u => .ok (implementsB t u)

/-- `newBinding(name, factory, shared...)` of `binding.go` lines 23-56:
reject non-functions; switch on the return count (one return, or two
with the second implementing `errorType` — which is nil, see
`errorType`); reject factories whose parameter list contains the
concrete return type (circular reference); otherwise build the binding,
`shared` defaulting to false when the variadic argument is absent. -/
def newBinding (name : String) (factory : GoAny) (shared : List Bool) :
    POr (Except Err Binding) :=
  match factory with
  | .val _ => .ok (.error .notFactory)
  | .fn f =>
    -- switch returnCount := rt.NumOut(); the `2` case checks
    -- rt.Out(1).Implements(errorType) and the default case rejects.
    let afterSwitch : Ty → Except Err Binding := fun concreteType =>
      -- for i := 0; i < rt.NumIn(); i++ { if rt.In(i) == concreteType }
      if f.params.contains concreteType then
        .error .circularReference
      else
        .ok ⟨name, concreteType, f,
             match shared with
             | [] => false
             | s :: _ => s⟩
    match f.rets with
    | [r0] => .ok (afterSwitch r0)
    | [r0, r1] =>
      match typeImplements r1 errorType with
      | .panic msg => .panic msg
      | .ok true => .ok (afterSwitch r0)
      | .ok false => .ok (.error .invalidFactory)
    | _ => .ok (.error .invalidFactory)

/-! ## The container (`src/unnamed/part_003`) -/

/-- `type Container struct` of part_003 lines 19-23: a parent pointer
and the two nested maps `factories : map[reflect.Type]map[string]*binding`
and `instances : map[reflect.Type]map[string]reflect.Value`. -/
inductive Container : Type where
  | mk : Option Container → List (Ty × List (String × Binding)) →
      List (Ty × List (String × Val)) → Container

def Container.parent : Container → Option Container
  | .mk p _ _ => p

def Container.factories : Container → List (Ty × List (String × Binding))
  | .mk _ f _ => f

def Container.instances : Container → List (Ty × List (String × Val))
  | .mk _ _ i => i

/-- `New()`: `&Container{}` (nil maps read as empty). -/
def New : Container := .mk none [] []

/-- `Fork()` (part_003 lines 33-35): a fresh child whose parent is the
receiver and whose own maps are empty. -/
def Container.Fork (c : Container) : Container := .mk (some c) [] []

/-- `setInstance(name, rt, rv)` (part_003 lines 55-63): ensure the
nested maps and write `instances[rt][name] = rv`. -/
def setInstance (c : Container) (name : String) (rt : Ty) (rv : Val) :
    Container :=
  let values := match findM c.instances rt with
    | some vs => vs
    | none => []
  .mk c.parent c.factories (insertM c.instances rt (insertM values name rv))

/-- The read `c.instances[t][name]` (used by `make` for the cache check
and below to state properties about the instance maps). -/
def lookupInstance (c : Container) (t : Ty) (name : String) : Option Val :=
  match findM c.instances t with
  | some values => findM values name
  | none => none

/-- `NamedBind(name, value)` (part_003 lines 48-52): store the value
under its runtime type and the name. -/
def NamedBind (c : Container) (name : String) (value : Val) : Container :=
  setInstance c name value.typeOf value

/-- `Bind(value)` = `NamedBind("", value)`. -/
def Bind (c : Container) (value : Val) : Container :=
  NamedBind c ("") value

/-- `NamedFactory(name, factory, shared...)` (part_003 lines 72-85):
build the binding (which may return an error or panic, see
`newBinding`), then write `factories[b.typ][name] = b`.  The pair in
the result is Go's `(error, receiver state after the call)`. -/
def NamedFactory (c : Container) (name : String) (factory : GoAny)
    (shared : List Bool) : POr (Option Err × Container) :=
  match newBinding name factory shared with
  | .panic msg => .panic msg
  | .ok (.error e) => .ok (some e, c)
  | .ok (.ok b) =>
    let bindings := match findM c.factories b.typ with
      | some bs => bs
      | none => []
    .ok (none,
      .mk c.parent (insertM c.factories b.typ (insertM bindings name b))
        c.instances)

/-- `Factory(factory, shared...)` = `NamedFactory("", factory, shared...)`
(part_003 lines 67-69). -/
def Factory (c : Container) (factory : GoAny) (shared : List Bool) :
    POr (Option Err × Container) :=
  NamedFactory c ("") factory shared

/-! ## The tag parser (`src/unnamed/part_000`) -/

/-- `parseTag(field)` (part_000 lines 21-34) applied to the result of
`field.Tag.Lookup("ioc")`: absence of the key means injection is not
requested; otherwise the name is the first comma-separated segment and
`omitempty` is set when a later segment equals "omitempty".
Returns `(name, omitempty, inject)`. -/
def parseTag (tagLookup : Option String) : String × Bool × Bool :=
  match tagLookup with
  | none => (("" : String), false, false)
  | some s =>
    let segments := s.splitOn (",")
    (segments.headD (""), (segments.drop 1).contains ("omitempty"), true)

/-! ## Results of the resolution engine

`Res` threads the (mutated-in-place in Go) container through every
outcome; `div` records that the fuel ran out, i.e. the Go execution
would still be running (the engine consumes fuel at every step, so a
result of `.div` at every fuel is a genuinely diverging execution,
and a successful result at some small fuel certifies that the run
performed at most that many nested engine steps). -/
inductive Res (α : Type) : Type where
  | div : Res α
  | ok : α → Container → Res α
  | err : Err → Container → Res α

/-- The pure fallback scan over the instance maps, part_003 lines
129-136: the first entry of another type that implements the requested
interface or is assignable to the requested type, and that has a value
under this `name`. -/
def scanInstances (insts : List (Ty × List (String × Val)))
    (name : String) (t : Ty) : Option Val :=
  match insts with
  | [] => none
  | (rt, values) :: rest =>
    if (!(rt = t)) &&
        (t.kindIsInterface && implementsB rt t || assignableToB rt t) then
      match findM values name with
      | some val => some val
      | none => scanInstances rest name t
    else scanInstances rest name t

/-- The operations of part_003 / `binding.go` that recurse into each
other (`get` ↔ `make` ↔ `invoke` ↔ `resolve`).  Packaging them as one
structure defined by structural recursion on fuel keeps every
definition executable by plain reduction. -/
structure Engine : Type where
  get : Container → String → Option Ty → Res Val
  getSteps3to6 : Container → String → Ty → Res Val
  scanFactories : List (Ty × List (String × Binding)) → Container → Ty →
    Res (Option Val)
  make : Binding → Container → Res Val
  invoke : Container → GoFunc → Res (List Val)
  invokeArgs : Container → List Ty → Res (List Val)
  resolve : Container → Val → Res Val
  resolveFields : Container → List FieldSpec → List Val → Res (List Val)

/-- One fuel level of the engine.  Each field is the faithful
translation of one source function; all nested calls run at the next
lower fuel level. -/
def engine : Nat → Engine
  | 0 =>
    ⟨fun _ _ _ => .div, fun _ _ _ => .div, fun _ _ _ => .div,
     fun _ _ => .div, fun _ _ => .div, fun _ _ => .div,
     fun _ _ => .div, fun _ _ _ => .div⟩
  | fuel + 1 =>
    let prev := engine fuel
    { -- `get(name, t)` (part_003 lines 100-126 here; the remaining
      -- steps are `getSteps3to6`): nil type; exact instance match
      -- (`instances[t][name]`, if valid); exact factory match
      -- (`factories[t][name]`, run through `make`, propagating its
      -- error and falling through when the produced value is invalid).
      get := fun c name t =>
        match t with
        | none => .err .valueNotFound c
        | some t =>
          let instanceHit : Option Val :=
            match findM c.instances t with
            | some values =>
              match findM values name with
              | some value => if value.isValid then some value else none
              | none => none
            | none => none
          match instanceHit with
          | some value => .ok value c
          | none =>
            match findM c.factories t with
            | some bindings =>
              match findM bindings name with
              | some bind =>
                match prev.make bind c with
                | .div => .div
                | .err e c2 => .err e c2
                | .ok val c2 =>
                  if val.isValid then .ok val c2
                  else prev.getSteps3to6 c2 name t
              | none => prev.getSteps3to6 c name t
            | none => prev.getSteps3to6 c name t
      -- `get`, part_003 lines 128-178: fallback scan over the instance
      -- maps (same `name`); fallback scan over the factory maps; parent
      -- delegation — the source line 159 is `return c.NamedGet(name, t)`
      -- on the SAME receiver `c`, not on `c.parent`, translated
      -- faithfully here; implicit construction for struct kinds
      -- (`reflect.New(t)` then `resolve`, returning the pointer).
      getSteps3to6 := fun c name t =>
        match scanInstances c.instances name t with
        | some val => .ok val c
        | none =>
          match prev.scanFactories c.factories c t with
          | .div => .div
          | .err e c2 => .err e c2
          | .ok found c2 =>
            match found with
            | some val => .ok val c2
            | none =>
              match c2.parent with
              | some _ => prev.get c2 name (some t)
              | none =>
                -- lines 162-165: `rt := t; if rt.Kind() == Pointer
                -- { rt = rt.Elem() }` — `rt` is then never used.
                if t.kindIsStruct then
                  match prev.resolve c2 (Val.ptrV (zeroVal t)) with
                  | .div => .div
                  | .err e c3 => .err e c3
                  | .ok rv c3 => .ok rv c3
                else .err .valueNotFound c2
      -- part_003 lines 138-156: for each other type `rt`, the `switch`
      -- first matches the interface case WITH AN EMPTY BODY (so such
      -- candidates are skipped), and the assignable case looks up the
      -- binding under the EMPTY name, skipping on absence or error.
      scanFactories := fun facs c t =>
        match facs with
        | [] => .ok none c
        | (rt, bindings) :: rest =>
          if !(t = rt) then
            if t.kindIsInterface && implementsB rt t then
              prev.scanFactories rest c t
            else if assignableToB rt t then
              match findM bindings ("") with
              | none => prev.scanFactories rest c t
              | some bind =>
                match prev.make bind c with
                | .div => .div
                | .err _ c2 => prev.scanFactories rest c2 t
                | .ok val c2 =>
                  if val.isValid then .ok (some val) c2
                  else prev.scanFactories rest c2 t
            else prev.scanFactories rest c t
          else prev.scanFactories rest c t
      -- `(*binding).make(c)` (`binding.go` lines 58-80): return any
      -- instance cached under `(typ, name)` (no shared check on the
      -- read!); otherwise invoke the factory, propagate a non-nil
      -- second return, and cache the result when `shared`.
      make := fun b c =>
        let cached : Option Val :=
          match findM c.instances b.typ with
          | some values => findM values b.name
          | none => none
        match cached with
        | some v => .ok v c
        | none =>
          match prev.invoke c b.factory with
          | .div => .div
          | .err e c2 => .err e c2
          | .ok val c2 =>
            -- rv := val[0]; Call returns NumOut ≥ 1 values for any
            -- binding newBinding accepts, so the default is unused.
            let rv := val.headD (.goErr none)
            let errV : Option Nat :=
              if val.length == 2 then (val.getD 1 (.goErr none)).asError
              else none
            match errV with
            | some e => .err (.factoryErr e) c2
            | none =>
              if b.shared && rv.isValid then
                .ok rv (setInstance c2 b.name b.typ rv)
              else .ok rv c2
      -- `invoke(rt, rv)` (part_003 lines 233-247): resolve every
      -- parameter, then `rv.Call(in)`.
      invoke := fun c f =>
        match prev.invokeArgs c f.params with
        | .div => .div
        | .err e c2 => .err e c2
        | .ok args c2 => .ok (f.run args) c2
      -- the parameter loop of `invoke`: `c.Get(argType)` for each
      -- parameter in order, aborting on error or invalid value.
      invokeArgs := fun c ps =>
        match ps with
        | [] => .ok [] c
        | p :: rest =>
          match prev.get c ("") (some p) with
          | .div => .div
          | .err e c2 => .err e c2
          | .ok val c2 =>
            if val.isValid then
              match prev.invokeArgs c2 rest with
              | .div => .div
              | .err e c3 => .err e c3
              | .ok vals c3 => .ok (val :: vals) c3
            else .err (.invalidValue p) c2
      -- `resolve(rv)` (part_003 lines 188-222): dereference, require a
      -- struct, inject the fields; mutation through the pointer is
      -- modelled by re-wrapping the updated struct (the trailing
      -- `rv = &v` of line 220 has no effect and is dropped).
      resolve := fun c v0 =>
        match stripPtr v0 with
        | .strctV i fields =>
          match prev.resolveFields c (structFields i) fields with
          | .div => .div
          | .err e c2 => .err e c2
          | .ok fields2 c2 =>
            .ok (wrapPtr (ptrDepth v0) (.strctV i fields2)) c2
        | _ => .err .mustStruct c
      -- the field loop of `resolve` (part_003 lines 197-219): parse the
      -- tag; an unsettable field errors when injection was requested
      -- and not optional, else is skipped; a settable field is ALWAYS
      -- looked up via `NamedGet(tag, field.Type())` — the `inject`
      -- flag is not consulted on this path — with `omitempty`
      -- tolerating the failure.
      resolveFields := fun c specs vals =>
        match specs, vals with
        | spec :: specs2, fv0 :: vals2 =>
          match parseTag spec.tag with
          | (tag, omitempty, inject) =>
            if !spec.canSet then
              if inject && !omitempty then .err .cannotSet c
              else
                match prev.resolveFields c specs2 vals2 with
                | .div => .div
                | .err e c2 => .err e c2
                | .ok rest c2 => .ok (fv0 :: rest) c2
            else
              match prev.get c tag (some spec.ty) with
              | .div => .div
              | .err e c2 =>
                if omitempty then
                  match prev.resolveFields c2 specs2 vals2 with
                  | .div => .div
                  | .err e2 c3 => .err e2 c3
                  | .ok rest c3 => .ok (fv0 :: rest) c3
                else .err e c2
              | .ok fv c2 =>
                if fv.isValid then
                  match prev.resolveFields c2 specs2 vals2 with
                  | .div => .div
                  | .err e c3 => .err e c3
                  | .ok rest c3 => .ok (fv :: rest) c3
                else .err (.invalidValue spec.ty) c2
        | _, _ =>
          -- field count always matches NumField; unreachable.
          .ok vals c }

/-! ## The public operations at a given fuel -/

/-- `get` of part_003 lines 100-179 (steps 1-2 inline, steps 3-6 in
`getSteps3to6`). -/
def get (fuel : Nat) (c : Container) (name : String) (t : Option Ty) :
    Res Val :=
  (engine fuel).get c name t

/-- `NamedGet(name, t)` (part_003 lines 96-98). -/
def NamedGet (fuel : Nat) (c : Container) (name : String) (t : Option Ty) :
    Res Val :=
  get fuel c name t

/-- `Get(t)` (part_003 lines 91-93). -/
def Get (fuel : Nat) (c : Container) (t : Option Ty) : Res Val :=
  get fuel c ("") t

/-- `(*binding).make`. -/
def make (fuel : Nat) (b : Binding) (c : Container) : Res Val :=
  (engine fuel).make b c

/-- `invoke`. -/
def invoke (fuel : Nat) (c : Container) (f : GoFunc) : Res (List Val) :=
  (engine fuel).invoke c f

/-- The parameter-resolution loop of `invoke`. -/
def invokeArgs (fuel : Nat) (c : Container) (ps : List Ty) :
    Res (List Val) :=
  (engine fuel).invokeArgs c ps

/-- `resolve`. -/
def resolve (fuel : Nat) (c : Container) (v : Val) : Res Val :=
  (engine fuel).resolve c v

/-- The field loop of `resolve`. -/
def resolveFields (fuel : Nat) (c : Container) (specs : List FieldSpec)
    (vals : List Val) : Res (List Val) :=
  (engine fuel).resolveFields c specs vals

/-- The fallback factory scan of `get`. -/
def scanFactoriesAt (fuel : Nat) (facs : List (Ty × List (String × Binding)))
    (c : Container) (t : Ty) : Res (Option Val) :=
  (engine fuel).scanFactories facs c t

/-- Steps 3-6 of `get`. -/
def getSteps3to6At (fuel : Nat) (c : Container) (name : String) (t : Ty) :
    Res Val :=
  (engine fuel).getSteps3to6 c name t

/-- `Resolve(i)` (part_003 lines 183-186): `v := reflect.ValueOf(i)`
then `resolve(&v)`; the Go method returns only the error, the caller
observing mutation through its own pointer, which the model expresses
by returning the updated value. -/
def Resolve (fuel : Nat) (c : Container) (i : Val) : Res Val :=
  resolve fuel c i

/-- `Invoke(fn)` (part_003 lines 225-231): reject non-functions, then
`invoke`. -/
def Invoke (fuel : Nat) (c : Container) (fn : GoAny) : Res (List Val) :=
  match fn with
  | .val _ => .err .notFunc c
  | .fn f => invoke fuel c f

end Ioc

namespace Ioc

/-! ## Equational presentation of the engine

One lemma per operation and fuel step, each proved by `rfl` against
`engine`; all proofs below work from these. -/

theorem get_zero (c : Container) (name : String) (t : Option Ty) :
    get 0 c name t = .div := rfl

theorem getSteps3to6_zero (c : Container) (name : String) (t : Ty) :
    getSteps3to6At 0 c name t = .div := rfl

theorem scanFactories_zero (facs : List (Ty × List (String × Binding)))
    (c : Container) (t : Ty) : scanFactoriesAt 0 facs c t = .div := rfl

theorem make_zero (b : Binding) (c : Container) : make 0 b c = .div := rfl

theorem invoke_zero (c : Container) (f : GoFunc) : invoke 0 c f = .div := rfl

theorem invokeArgs_zero (c : Container) (ps : List Ty) :
    invokeArgs 0 c ps = .div := rfl

theorem resolve_zero (c : Container) (v : Val) : resolve 0 c v = .div := rfl

theorem resolveFields_zero (c : Container) (specs : List FieldSpec)
    (vals : List Val) : resolveFields 0 c specs vals = .div := rfl

theorem get_succ_none (fuel : Nat) (c : Container) (name : String) :
    get (fuel + 1) c name none = .err .valueNotFound c := rfl

theorem get_succ (fuel : Nat) (c : Container) (name : String) (t : Ty) :
    get (fuel + 1) c name (some t) =
      (match
        (match findM c.instances t with
         | some values =>
           match findM values name with
           | some value => if value.isValid then some value else none
           | none => none
         | none => none) with
       | some value => .ok value c
       | none =>
         match findM c.factories t with
         | some bindings =>
           match findM bindings name with
           | some bind =>
             match make fuel bind c with
             | .div => .div
             | .err e c2 => .err e c2
             | .ok val c2 =>
               if val.isValid then .ok val c2
               else getSteps3to6At fuel c2 name t
           | none => getSteps3to6At fuel c name t
         | none => getSteps3to6At fuel c name t) := rfl

theorem getSteps3to6_succ (fuel : Nat) (c : Container) (name : String)
    (t : Ty) :
    getSteps3to6At (fuel + 1) c name t =
      (match scanInstances c.instances name t with
       | some val => .ok val c
       | none =>
         match scanFactoriesAt fuel c.factories c t with
         | .div => .div
         | .err e c2 => .err e c2
         | .ok found c2 =>
           match found with
           | some val => .ok val c2
           | none =>
             match c2.parent with
             | some _ => get fuel c2 name (some t)
             | none =>
               if t.kindIsStruct then
                 match resolve fuel c2 (Val.ptrV (zeroVal t)) with
                 | .div => .div
                 | .err e c3 => .err e c3
                 | .ok rv c3 => .ok rv c3
               else .err .valueNotFound c2) := rfl

theorem scanFactories_succ (fuel : Nat)
    (facs : List (Ty × List (String × Binding))) (c : Container) (t : Ty) :
    scanFactoriesAt (fuel + 1) facs c t =
      (match facs with
       | [] => .ok none c
       | (rt, bindings) :: rest =>
         if !(t = rt) then
           if t.kindIsInterface && implementsB rt t then
             scanFactoriesAt fuel rest c t
           else if assignableToB rt t then
             match findM bindings ("") with
             | none => scanFactoriesAt fuel rest c t
             | some bind =>
               match make fuel bind c with
               | .div => .div
               | .err _ c2 => scanFactoriesAt fuel rest c2 t
               | .ok val c2 =>
                 if val.isValid then .ok (some val) c2
                 else scanFactoriesAt fuel rest c2 t
           else scanFactoriesAt fuel rest c t
         else scanFactoriesAt fuel rest c t) := rfl

theorem make_succ (fuel : Nat) (b : Binding) (c : Container) :
    make (fuel + 1) b c =
      (match lookupInstance c b.typ b.name with
       | some v => .ok v c
       | none =>
         match invoke fuel c b.factory with
         | .div => .div
         | .err e c2 => .err e c2
         | .ok val c2 =>
           match
             (if val.length == 2 then (val.getD 1 (.goErr none)).asError
              else none) with
           | some e => .err (.factoryErr e) c2
           | none =>
             if b.shared && (val.headD (.goErr none)).isValid then
               .ok (val.headD (.goErr none))
                 (setInstance c2 b.name b.typ (val.headD (.goErr none)))
             else .ok (val.headD (.goErr none)) c2) := rfl

theorem invoke_succ (fuel : Nat) (c : Container) (f : GoFunc) :
    invoke (fuel + 1) c f =
      (match invokeArgs fuel c f.params with
       | .div => .div
       | .err e c2 => .err e c2
       | .ok args c2 => .ok (f.run args) c2) := rfl

theorem invokeArgs_succ_nil (fuel : Nat) (c : Container) :
    invokeArgs (fuel + 1) c [] = .ok [] c := rfl

theorem invokeArgs_succ_cons (fuel : Nat) (c : Container) (p : Ty)
    (rest : List Ty) :
    invokeArgs (fuel + 1) c (p :: rest) =
      (match get fuel c ("") (some p) with
       | .div => .div
       | .err e c2 => .err e c2
       | .ok val c2 =>
         if val.isValid then
           match invokeArgs fuel c2 rest with
           | .div => .div
           | .err e c3 => .err e c3
           | .ok vals c3 => .ok (val :: vals) c3
         else .err (.invalidValue p) c2) := rfl

theorem resolve_succ (fuel : Nat) (c : Container) (v0 : Val) :
    resolve (fuel + 1) c v0 =
      (match stripPtr v0 with
       | .strctV i fields =>
         match resolveFields fuel c (structFields i) fields with
         | .div => .div
         | .err e c2 => .err e c2
         | .ok fields2 c2 =>
           .ok (wrapPtr (ptrDepth v0) (.strctV i fields2)) c2
       | _ => .err .mustStruct c) := rfl

theorem resolveFields_succ (fuel : Nat) (c : Container)
    (specs : List FieldSpec) (vals : List Val) :
    resolveFields (fuel + 1) c specs vals =
      (match specs, vals with
       | spec :: specs2, fv0 :: vals2 =>
         match parseTag spec.tag with
         | (tag, omitempty, inject) =>
           if !spec.canSet then
             if inject && !omitempty then .err .cannotSet c
             else
               match resolveFields fuel c specs2 vals2 with
               | .div => .div
               | .err e c2 => .err e c2
               | .ok rest c2 => .ok (fv0 :: rest) c2
           else
             match get fuel c tag (some spec.ty) with
             | .div => .div
             | .err e c2 =>
               if omitempty then
                 match resolveFields fuel c2 specs2 vals2 with
                 | .div => .div
                 | .err e2 c3 => .err e2 c3
                 | .ok rest c3 => .ok (fv0 :: rest) c3
               else .err e c2
             | .ok fv c2 =>
               if fv.isValid then
                 match resolveFields fuel c2 specs2 vals2 with
                 | .div => .div
                 | .err e c3 => .err e c3
                 | .ok rest c3 => .ok (fv :: rest) c3
               else .err (.invalidValue spec.ty) c2
       | _, _ => .ok vals c) := rfl

/-! ## Association-map and container lemmas -/

theorem findM_insertM_self {κ ν : Type} [DecidableEq κ]
    (m : List (κ × ν)) (k : κ) (v : ν) : findM (insertM m k v) k = some v := by
  induction m with
  | nil => simp [insertM, findM]
  | cons hd tl ih =>
    obtain ⟨k2, w⟩ := hd
    by_cases hk : k2 = k
    · subst hk; simp [insertM, findM]
    · simp [insertM, findM, hk, ih]

theorem findM_insertM_ne {κ ν : Type} [DecidableEq κ]
    (m : List (κ × ν)) (k key : κ) (v : ν) (h : key ≠ k) :
    findM (insertM m k v) key = findM m key := by
  induction m with
  | nil => simp [insertM, findM, Ne.symm h]
  | cons hd tl ih =>
    obtain ⟨k2, w⟩ := hd
    by_cases hk : k2 = k
    · subst hk
      simp [insertM, findM, Ne.symm h]
    · simp only [insertM, if_neg hk, findM]
      by_cases hk2 : k2 = key
      · simp [hk2]
      · simp [hk2, ih]

theorem findM_mem {κ ν : Type} [DecidableEq κ]
    (m : List (κ × ν)) (k : κ) (v : ν) (h : findM m k = some v) :
    (k, v) ∈ m := by
  induction m with
  | nil => simp [findM] at h
  | cons hd tl ih =>
    obtain ⟨k2, w⟩ := hd
    by_cases hk : k2 = k
    · subst hk
      simp [findM] at h
      simp [h]
    · simp only [findM, if_neg hk] at h
      exact List.mem_cons_of_mem _ (ih h)

theorem lookupInstance_setInstance_self (c : Container) (n : String)
    (t : Ty) (v : Val) : lookupInstance (setInstance c n t v) t n = some v := by
  unfold lookupInstance setInstance
  simp only [Container.instances, findM_insertM_self, findM_insertM_self]

theorem lookupInstance_setInstance_ne_name (c : Container) (n n2 : String)
    (t : Ty) (v : Val) (h : n ≠ n2) :
    lookupInstance (setInstance c n2 t v) t n = lookupInstance c t n := by
  obtain ⟨p, facs, insts⟩ := c
  unfold lookupInstance setInstance
  simp only [Container.instances, findM_insertM_self]
  cases hf : findM insts t with
  | none => simp [hf, findM_insertM_ne _ _ _ _ h, findM, Ne.symm h]
  | some values => simp [hf, findM_insertM_ne _ _ _ _ h]

theorem scanInstances_mem (insts : List (Ty × List (String × Val)))
    (name : String) (t : Ty) (v : Val)
    (h : scanInstances insts name t = some v) :
    ∃ rt values, (rt, values) ∈ insts ∧ findM values name = some v := by
  induction insts with
  | nil => simp [scanInstances] at h
  | cons hd tl ih =>
    obtain ⟨rt, values⟩ := hd
    unfold scanInstances at h
    by_cases hc : (!(rt = t)) &&
        (t.kindIsInterface && implementsB rt t || assignableToB rt t)
    · rw [if_pos hc] at h
      cases hf : findM values name with
      | none =>
        rw [hf] at h
        obtain ⟨rt2, values2, hmem, hfind⟩ := ih h
        exact ⟨rt2, values2, List.mem_cons_of_mem _ hmem, hfind⟩
      | some w =>
        rw [hf] at h
        simp only [Option.some.injEq] at h
        subst h
        exact ⟨rt, values, List.mem_cons_self _ _, hf⟩
    · rw [if_neg hc] at h
      obtain ⟨rt2, values2, hmem, hfind⟩ := ih h
      exact ⟨rt2, values2, List.mem_cons_of_mem _ hmem, hfind⟩

/-- A cached instance is returned by `get`'s first step at any fuel,
with the container unchanged. -/
theorem get_cached (fuel : Nat) (c : Container) (name : String) (t : Ty)
    (v : Val) (h : lookupInstance c t name = some v) :
    get (fuel + 1) c name (some t) = .ok v c := by
  unfold lookupInstance at h
  cases hf : findM c.instances t with
  | none => rw [hf] at h; simp at h
  | some values =>
    rw [hf] at h
    simp only [] at h
    rw [get_succ]
    simp [hf, h, Val.isValid]

/-- `make`'s first step returns a cached instance (regardless of
`shared`) with the container unchanged — at minimal fuel, so no nested
invocation can have happened. -/
theorem make_cached (fuel : Nat) (b : Binding) (c : Container) (v : Val)
    (h : lookupInstance c b.typ b.name = some v) :
    make (fuel + 1) b c = .ok v c := by
  rw [make_succ, h]

/-- Full decomposition of a successful `make`: either the cache hit
(no state change), or the factory was invoked and the produced value is
`val[0]`, cached under `(typ, name)` exactly when `shared`. -/
theorem make_ok_decomp (fuel : Nat) (b : Binding) (c c2 : Container)
    (v : Val) (hm : make (fuel + 1) b c = .ok v c2) :
    (lookupInstance c b.typ b.name = some v ∧ c2 = c) ∨
    (lookupInstance c b.typ b.name = none ∧
      ∃ vals c3, invoke fuel c b.factory = .ok vals c3 ∧
        v = vals.headD (.goErr none) ∧
        (b.shared = true → c2 = setInstance c3 b.name b.typ v) ∧
        (b.shared = false → c2 = c3)) := by
  rw [make_succ] at hm
  cases hl : lookupInstance c b.typ b.name with
  | some w =>
    rw [hl] at hm
    simp only [Res.ok.injEq] at hm
    exact Or.inl ⟨congrArg some hm.1, hm.2.symm⟩
  | none =>
    rw [hl] at hm
    simp only [] at hm
    refine Or.inr ⟨rfl, ?_⟩
    cases hi : invoke fuel c b.factory with
    | div => rw [hi] at hm; exact absurd hm (by simp)
    | err e c3 => rw [hi] at hm; exact absurd hm (by simp)
    | ok vals c3 =>
      rw [hi] at hm
      simp only [] at hm
      cases he : (if vals.length == 2 then (vals.getD 1 (.goErr none)).asError
          else none) with
      | some e => rw [he] at hm; exact absurd hm (by simp)
      | none =>
        rw [he] at hm
        simp only [Val.isValid, Bool.and_true] at hm
        cases hsh : b.shared with
        | true =>
          rw [hsh] at hm
          simp only [if_pos, Res.ok.injEq] at hm
          refine ⟨vals, c3, rfl, hm.1.symm, fun _ => ?_,
            fun hff => absurd hff (by decide)⟩
          rw [← hm.2, hm.1]
        | false =>
          rw [hsh] at hm
          simp only [Bool.false_eq_true, if_false, Res.ok.injEq] at hm
          exact ⟨vals, c3, rfl, hm.1.symm, fun htt => absurd htt (by decide),
            fun _ => hm.2.symm⟩

end Ioc

namespace Ioc

/-! ## Claim C1 — parent delegation -/

/-- C1: the code REFUTES the claim.  Parent delegation at part_003
line 159 reads `return c.NamedGet(name, t)` — the receiver `c` itself,
not `c.parent` — so on a forked child whose own maps are empty the
algorithm re-enters itself with unchanged state and never terminates
(`.div` at every fuel), for every parent (whatever values the parent
holds), every name and every type.  The claim (and the spec, and the
`Fork` doc comment in the source) instead promises termination with
the parent's binding. -/
theorem c1_fork_get_diverges :
    ∀ (fuel : Nat) (p : Container) (name : String) (t : Ty),
      get fuel (Container.Fork p) name (some t) = .div := by
  intro fuel
  induction fuel using Nat.strong_induction_on with
  | _ n ih =>
    match n with
    | 0 => intro p name t; rfl
    | 1 => intro p name t; rfl
    | 2 => intro p name t; rfl
    | (m + 3) =>
      intro p name t
      have hstep : get (m + 3) (Container.Fork p) name (some t) =
          get (m + 1) (Container.Fork p) name (some t) := rfl
      rw [hstep]
      exact ih (m + 1) (by omega) p name t

/-! ## Claim C2 — factory signature validation never panics -/

/-- A factory of shape `func() (int, error)`. -/
def fIntErr : GoFunc :=
  ⟨[], [.int, .errIface], fun _ => [.prim .int 0, .goErr none]⟩

/-- A factory of shape `func() int`. -/
def fIntOnly : GoFunc := ⟨[], [.int], fun _ => [.prim .int 7]⟩

/-- C2: the code has a bug the claim (and the spec) contradicts.
`errorType = reflect.TypeOf(error(nil))` is the nil `reflect.Type`, so
for EVERY two-return factory — in particular the well-formed shape
`func() (T, error)` — `rt.Out(1).Implements(errorType)` panics inside
`reflect` instead of validating, and `Factory`/`NamedFactory` panic
instead of returning nil.  One-return factories and non-functions do
return as the claim says. -/
theorem c2_two_return_factory_panics :
    newBinding ("") (.fn fIntErr) [] =
      .panic ("reflect: nil type passed to Type.Implements") ∧
    newBinding ("") (.fn fIntOnly) [] =
      .ok (.ok ⟨("") , .int, fIntOnly, false⟩) ∧
    newBinding ("") (.val (.prim .int 0)) [] = .ok (.error .notFactory) :=
  ⟨rfl, rfl, rfl⟩

/-! ## Claim C3 — circular-reference rejection at registration -/

/-- A factory of shape `func(int) int` (parameter equals return). -/
def fCircOne : GoFunc := ⟨[.int], [.int], fun _ => [.prim .int 1]⟩

/-- A factory of shape `func(int) (int, error)` (parameter equals
first return). -/
def fCircTwo : GoFunc :=
  ⟨[.int], [.int, .errIface], fun _ => [.prim .int 1, .goErr none]⟩

/-- C3: the claim holds for one-return factories — registration
returns exactly the CircularReference error and the registry is the
unchanged receiver — but for a self-dependent factory WITH a declared
error return (`func(int) (int, error)`) the `errorType` nil-type bug
of C2 panics the registration before the circular check is ever
reached, so the claim's "for every function fn" fails on the code. -/
theorem c3_circular_reference_registration :
    (∀ (c : Container) (name : String),
      NamedFactory c name (.fn fCircOne) [] =
        .ok (some .circularReference, c)) ∧
    NamedFactory New ("x") (.fn fCircTwo) [] =
      .panic ("reflect: nil type passed to Type.Implements") :=
  ⟨fun _ _ => rfl, rfl⟩

/-! ## Claim C7 — value bindings: exact roundtrip, last-write-wins,
named coexistence -/

/-- C7: CONFIRMED.  `Get` after `Bind` (and `NamedGet` after
`NamedBind`) returns exactly the bound value with the container
untouched; rebinding the same `(type, name)` key returns the later
value (last-write-wins); bindings under two different names for the
same type coexist and each name resolves to its own value. -/
theorem c7_bind_get_roundtrip (c : Container) (n n2 : String)
    (v w v2 : Val) (fuel : Nat) (hw : w.typeOf = v.typeOf)
    (hv2 : v2.typeOf = v.typeOf) (hnn : n ≠ n2) :
    Get (fuel + 1) (Bind c v) (some v.typeOf) = .ok v (Bind c v) ∧
    get (fuel + 1) (NamedBind c n v) n (some v.typeOf) =
      .ok v (NamedBind c n v) ∧
    get (fuel + 1) (NamedBind (NamedBind c n v) n w) n (some v.typeOf) =
      .ok w (NamedBind (NamedBind c n v) n w) ∧
    get (fuel + 1) (NamedBind (NamedBind c n v) n2 v2) n (some v.typeOf) =
      .ok v (NamedBind (NamedBind c n v) n2 v2) ∧
    get (fuel + 1) (NamedBind (NamedBind c n v) n2 v2) n2 (some v2.typeOf) =
      .ok v2 (NamedBind (NamedBind c n v) n2 v2) := by
  refine ⟨?_, ?_, ?_, ?_, ?_⟩
  · exact get_cached _ _ _ _ _ (lookupInstance_setInstance_self c ("") v.typeOf v)
  · exact get_cached _ _ _ _ _ (lookupInstance_setInstance_self c n v.typeOf v)
  · rw [← hw]
    exact get_cached _ _ _ _ _
      (lookupInstance_setInstance_self (NamedBind c n v) n w.typeOf w)
  · apply get_cached
    have h2 : lookupInstance (NamedBind (NamedBind c n v) n2 v2) v.typeOf n =
        lookupInstance (NamedBind c n v) v.typeOf n := by
      show lookupInstance
        (setInstance (NamedBind c n v) n2 v2.typeOf v2) v.typeOf n = _
      rw [hv2]
      exact lookupInstance_setInstance_ne_name _ n n2 _ v2 hnn
    rw [h2]
    exact lookupInstance_setInstance_self c n v.typeOf v
  · exact get_cached _ _ _ _ _
      (lookupInstance_setInstance_self (NamedBind c n v) n2 v2.typeOf v2)

/-- Witness for C7 at concrete inputs (`int` values 1, 2, 3; names
"a" and "b"). -/
theorem c7_bind_get_roundtrip_witness :
    Get 1 (Bind New (Val.prim .int 1)) (some .int) =
      .ok (Val.prim .int 1) (Bind New (Val.prim .int 1)) ∧
    get 1 (NamedBind New ("a") (Val.prim .int 1)) ("a") (some .int) =
      .ok (Val.prim .int 1) (NamedBind New ("a") (Val.prim .int 1)) ∧
    get 1 (NamedBind (NamedBind New ("a") (Val.prim .int 1)) ("a")
        (Val.prim .int 2)) ("a") (some .int) =
      .ok (Val.prim .int 2) (NamedBind (NamedBind New ("a")
        (Val.prim .int 1)) ("a") (Val.prim .int 2)) ∧
    get 1 (NamedBind (NamedBind New ("a") (Val.prim .int 1)) ("b")
        (Val.prim .int 3)) ("a") (some .int) =
      .ok (Val.prim .int 1) (NamedBind (NamedBind New ("a")
        (Val.prim .int 1)) ("b") (Val.prim .int 3)) ∧
    get 1 (NamedBind (NamedBind New ("a") (Val.prim .int 1)) ("b")
        (Val.prim .int 3)) ("b") (some .int) =
      .ok (Val.prim .int 3) (NamedBind (NamedBind New ("a")
        (Val.prim .int 1)) ("b") (Val.prim .int 3)) :=
  c7_bind_get_roundtrip New ("a") ("b") (Val.prim .int 1)
    (Val.prim .int 2) (Val.prim .int 3) 0 rfl rfl (by decide)

end Ioc

namespace Ioc

/-! ## Claim C6 — shared factories are invoked once and cached -/

/-- C6: CONFIRMED.  (1) Any value cached in `instances[t][name]` is
returned by `get` with the container unchanged — at every fuel
including the minimum 1, i.e. without entering `make` or the factory
at all, so repeated `Get`/`NamedGet` after the first success return
the identical cached value.  (2) A successful `make` of a
`shared=true` binding leaves the produced value cached under
`(typ, name)`, which is what the first successful `Get` stores.
(3) `make` itself short-circuits on the cache at minimal fuel, never
re-invoking the factory once a value is cached. -/
theorem c6_shared_factory_cached (fuel : Nat) (b : Binding)
    (c c2 : Container) (name : String) (t : Ty) (v : Val) :
    (lookupInstance c t name = some v →
      get (fuel + 1) c name (some t) = .ok v c) ∧
    (b.shared = true → make (fuel + 1) b c = .ok v c2 →
      lookupInstance c2 b.typ b.name = some v) ∧
    (lookupInstance c b.typ b.name = some v →
      make (fuel + 1) b c = .ok v c) := by
  refine ⟨fun h => get_cached fuel c name t v h, fun hsh hm => ?_,
    fun h => make_cached fuel b c v h⟩
  rcases make_ok_decomp fuel b c c2 v hm with ⟨hl, hc⟩ | ⟨_, vals, c3, _, _, hset, _⟩
  · rw [hc, hl]
  · rw [hset hsh]
    exact lookupInstance_setInstance_self c3 b.name b.typ v

/-- `func() int { return 42 }`, registered shared under the empty
name. -/
def fShared : GoFunc := ⟨[], [.int], fun _ => [.prim .int 42]⟩

/-- The binding `NamedFactory("", fShared, true)` creates. -/
def bShared : Binding := ⟨("") , .int, fShared, true⟩

/-- A container holding only the shared factory. -/
def cShared : Container := .mk none [(.int, [(("") , bShared)])] []

/-- `cShared` after the first successful `Get(int)`: the produced
value is cached in the instances map. -/
def cShared2 : Container :=
  .mk none [(.int, [(("") , bShared)])]
    [(.int, [(("") , Val.prim .int 42)])]

/-- Witness for C6: the first `Get` on `cShared` runs the factory and
caches 42; the theorem then yields the cache content after `make`, the
minimal-fuel second `Get`, and the minimal-fuel `make`
short-circuit. -/
theorem c6_shared_factory_cached_witness :
    get 10 cShared ("") (some .int) = .ok (Val.prim .int 42) cShared2 ∧
    lookupInstance cShared2 .int ("") = some (Val.prim .int 42) ∧
    get 1 cShared2 ("") (some .int) = .ok (Val.prim .int 42) cShared2 ∧
    make 1 bShared cShared2 = .ok (Val.prim .int 42) cShared2 := by
  refine ⟨rfl, ?_, ?_, ?_⟩
  · exact (c6_shared_factory_cached 8 bShared cShared cShared2 ("")
      .int (Val.prim .int 42)).2.1 rfl rfl
  · exact (c6_shared_factory_cached 0 bShared cShared2 cShared2 ("")
      .int (Val.prim .int 42)).1 rfl
  · exact (c6_shared_factory_cached 0 bShared cShared2 cShared2 ("")
      .int (Val.prim .int 42)).2.2 rfl

/-! ## Claim C10 — frame effect of `make` on the instance maps -/

/-- `func() MyInt { return 9 }` (a shared nested dependency). -/
def fDefInt : GoFunc := ⟨[], [.defInt], fun _ => [.prim .defInt 9]⟩

/-- The shared binding for `fDefInt` under the empty name. -/
def bDefInt : Binding := ⟨("") , .defInt, fDefInt, true⟩

/-- `func(MyInt) int { return 5 }` (the outer, NON-shared factory). -/
def fNeedsDefInt : GoFunc := ⟨[.defInt], [.int], fun _ => [.prim .int 5]⟩

/-- The non-shared binding for `fNeedsDefInt` under the empty name. -/
def bNeedsDefInt : Binding := ⟨("") , .int, fNeedsDefInt, false⟩

/-- Both factories registered, nothing cached. -/
def cNested : Container :=
  .mk none [(.int, [(("") , bNeedsDefInt)]), (.defInt, [(("") , bDefInt)])] []

/-- `cNested` after `Get(int)`: the nested shared dependency got
cached even though the binding `Get` targeted is non-shared. -/
def cNested2 : Container :=
  .mk none [(.int, [(("") , bNeedsDefInt)]), (.defInt, [(("") , bDefInt)])]
    [(.defInt, [(("") , Val.prim .defInt 9)])]

/-- C10 counterexample: `Get` of the NON-shared binding's type still
mutates the instance maps, because resolving its parameter runs the
nested shared factory, which caches its own result — refuting "when
shared=false the maps are left unchanged by Get" as stated. -/
theorem c10_nonshared_get_mutates_counterexample :
    Get 20 cNested (some .int) = .ok (Val.prim .int 5) cNested2 ∧
    cNested.instances = [] ∧
    cNested2.instances ≠ [] :=
  ⟨rfl, rfl, fun h => List.noConfusion h⟩

/-- C10 as amended: (1) `make` short-circuits on an instance already
stored under `(producedType, bindingName)` even for a non-shared
binding, without invoking the factory (minimal fuel, container
unchanged); (2) after a successful `make` of a shared binding the
produced value is stored under `(producedType, bindingName)`;
(3) starting from an uncached key, a successful `make` is an `invoke`
of the factory followed — exactly for `shared=true`, via the same
`setInstance` write that `NamedBind` uses — by caching `val[0]`;
for `shared=false` `make` itself adds nothing beyond what the nested
parameter resolution already wrote. -/
theorem c10_make_frame (fuel : Nat) (b : Binding) (c c2 : Container)
    (v : Val) :
    (lookupInstance c b.typ b.name = some v →
      make (fuel + 1) b c = .ok v c) ∧
    (b.shared = true → make (fuel + 1) b c = .ok v c2 →
      lookupInstance c2 b.typ b.name = some v) ∧
    (lookupInstance c b.typ b.name = none →
      make (fuel + 1) b c = .ok v c2 →
      ∃ vals c3, invoke fuel c b.factory = .ok vals c3 ∧
        v = vals.headD (.goErr none) ∧
        (b.shared = true → c2 = setInstance c3 b.name b.typ v) ∧
        (b.shared = false → c2 = c3)) := by
  refine ⟨fun h => make_cached fuel b c v h, fun hsh hm => ?_,
    fun hnone hm => ?_⟩
  · rcases make_ok_decomp fuel b c c2 v hm with ⟨hl, hc⟩ |
      ⟨_, vals, c3, _, _, hset, _⟩
    · rw [hc, hl]
    · rw [hset hsh]
      exact lookupInstance_setInstance_self c3 b.name b.typ v
  · rcases make_ok_decomp fuel b c c2 v hm with ⟨hl, _⟩ | ⟨_, hrest⟩
    · rw [hnone] at hl; cases hl
    · exact hrest

/-- Witness for C10 at concrete inputs: a non-shared binding
short-circuits on a pre-existing cached value; the shared nested
binding writes its cache; and the non-shared `make` from `cNested`
decomposes into its `invoke` with no write of its own. -/
theorem c10_make_frame_witness :
    make 1 bNeedsDefInt
        (Container.mk none [] [(.int, [(("") , Val.prim .int 7)])]) =
      .ok (Val.prim .int 7)
        (Container.mk none [] [(.int, [(("") , Val.prim .int 7)])]) ∧
    lookupInstance cNested2 .defInt ("") = some (Val.prim .defInt 9) ∧
    (∃ vals c3, invoke 9 cNested bNeedsDefInt.factory = .ok vals c3 ∧
      Val.prim .int 5 = vals.headD (.goErr none) ∧
      (bNeedsDefInt.shared = true →
        cNested2 = setInstance c3 ("") .int (Val.prim .int 5)) ∧
      (bNeedsDefInt.shared = false → cNested2 = c3)) := by
  refine ⟨?_, ?_, ?_⟩
  · exact (c10_make_frame 0 bNeedsDefInt
      (Container.mk none [] [(.int, [(("") , Val.prim .int 7)])])
      (Container.mk none [] [(.int, [(("") , Val.prim .int 7)])])
      (Val.prim .int 7)).1 rfl
  · exact (c10_make_frame 4 bDefInt cNested cNested2
      (Val.prim .defInt 9)).2.1 rfl rfl
  · exact (c10_make_frame 9 bNeedsDefInt cNested cNested2
      (Val.prim .int 5)).2.2 rfl rfl

end Ioc

namespace Ioc

/-! ## Claim C9 — Invoke -/

/-- C9: CONFIRMED.  `Invoke` rejects a non-function argument with an
error; when every parameter resolves (in declaration order, each via
`Get`, i.e. `get` with the empty name) it calls the function on exactly
the resolved arguments and returns the full result list of the call
unmodified (including any trailing error value, which it does not
inspect); the first parameter whose resolution fails aborts the whole
call with that failure before the function is ever applied, discarding
any arguments already resolved. -/
theorem c9_invoke_contract (fuel : Nat) (c c2 : Container) (f : GoFunc)
    (w : Val) (args : List Val) (e : Err) (p : Ty) (ps : List Ty) :
    (Invoke fuel c (.val w) = .err .notFunc c) ∧
    (invokeArgs fuel c f.params = .ok args c2 →
      Invoke (fuel + 1) c (.fn f) = .ok (f.run args) c2) ∧
    (invokeArgs fuel c f.params = .err e c2 →
      Invoke (fuel + 1) c (.fn f) = .err e c2) ∧
    (get fuel c ("") (some p) = .err e c2 →
      invokeArgs (fuel + 1) c (p :: ps) = .err e c2) ∧
    (get fuel c ("") (some p) = .ok w c2 →
      invokeArgs (fuel + 1) c (p :: ps) =
        (match invokeArgs fuel c2 ps with
         | .div => .div
         | .err e2 c3 => .err e2 c3
         | .ok vals c3 => .ok (w :: vals) c3)) := by
  refine ⟨rfl, fun h => ?_, fun h => ?_, fun h => ?_, fun h => ?_⟩
  · show invoke (fuel + 1) c f = _
    rw [invoke_succ, h]
  · show invoke (fuel + 1) c f = _
    rw [invoke_succ, h]
  · rw [invokeArgs_succ_cons, h]
  · rw [invokeArgs_succ_cons, h]
    simp [Val.isValid]

/-- A container with `int` value 4 bound. -/
def cInvokeW : Container := Bind New (Val.prim .int 4)

/-- `func(int) (int, error)` returning 9 and a NON-nil error — used to
show `Invoke` hands back the result list untouched. -/
def fUseInt : GoFunc :=
  ⟨[.int], [.int, .errIface], fun _ => [.prim .int 9, .goErr (some 3)]⟩

/-- Witness for C9: a non-function is rejected; a call whose parameter
resolves returns the function's results verbatim (non-nil trailing
error included); an unresolvable first parameter aborts with
ValueNotFound. -/
theorem c9_invoke_contract_witness :
    Invoke 3 cInvokeW (.val (Val.prim .int 0)) = .err .notFunc cInvokeW ∧
    Invoke 6 cInvokeW (.fn fUseInt) =
      .ok [Val.prim .int 9, Val.goErr (some 3)] cInvokeW ∧
    invokeArgs 4 New [.iface 9, .int] = .err .valueNotFound New := by
  refine ⟨?_, ?_, ?_⟩
  · exact (c9_invoke_contract 3 cInvokeW cInvokeW fUseInt (Val.prim .int 0)
      [] .notFunc .int []).1
  · exact (c9_invoke_contract 5 cInvokeW cInvokeW fUseInt (Val.prim .int 0)
      [Val.prim .int 4] .notFunc .int []).2.1 rfl
  · exact (c9_invoke_contract 3 New New fUseInt (Val.prim .int 0)
      [] .valueNotFound (.iface 9) [.int]).2.2.2.1 rfl

/-! ## Claim C4 — untagged struct fields -/

/-- C4 counterexample: `strct 1` has a single exported field with NO
`ioc` tag whose type (`iface 1`) has no binding; the claim says
`Resolve` skips it and cannot fail because of it, but `Resolve` on the
empty container fails with ValueNotFound — the `inject` flag of
`parseTag` is never consulted for settable fields (part_003 lines
197-219 only check it in the `!f.CanSet()` branch). -/
theorem c4_untagged_field_fails_counterexample :
    structFields 1 = [⟨.iface 1, none, true⟩] ∧
    Resolve 10 New (Val.ptrV (zeroVal (.strct 1))) =
      .err .valueNotFound New :=
  ⟨rfl, rfl⟩

/-- C4 as amended: only fields that reflection cannot set are skipped
when untagged (the struct comes back unchanged and `Resolve`
succeeds; `strct 2`'s one field is unexported and untagged); for a
settable field, `Resolve` attempts injection under the empty name
whether or not the tag is present, so it propagates a failed lookup
(`strct 1`'s one field is exported and untagged) and assigns the
resolved value on success. -/
theorem c4_untagged_fields_amended (c c2 : Container) (fuel : Nat)
    (e : Err) (w : Val) :
    (resolve (fuel + 3) c (Val.ptrV (zeroVal (.strct 2))) =
      .ok (Val.ptrV (zeroVal (.strct 2))) c) ∧
    (get (fuel + 1) c ("") (some (.iface 1)) = .err e c2 →
      resolve (fuel + 3) c (Val.ptrV (zeroVal (.strct 1))) = .err e c2) ∧
    (get (fuel + 1) c ("") (some (.iface 1)) = .ok w c2 →
      resolve (fuel + 3) c (Val.ptrV (zeroVal (.strct 1))) =
        .ok (Val.ptrV (.strctV 1 [w])) c2) := by
  have outer : resolve (fuel + 3) c (Val.ptrV (zeroVal (.strct 1))) =
      (match resolveFields (fuel + 2) c (structFields 1)
          [Val.prim (.iface 1) 0] with
       | .div => .div
       | .err e2 c3 => .err e2 c3
       | .ok fields2 c3 => .ok (Val.ptrV (.strctV 1 fields2)) c3) := rfl
  have inner : resolveFields (fuel + 2) c (structFields 1)
      [Val.prim (.iface 1) 0] =
      (match get (fuel + 1) c ("") (some (.iface 1)) with
       | .div => .div
       | .err e2 c3 => .err e2 c3
       | .ok fv c3 => .ok [fv] c3) := rfl
  refine ⟨rfl, fun h => ?_, fun h => ?_⟩
  · rw [outer, inner, h]
  · rw [outer, inner, h]

/-- A container with a concrete implementation of `iface 1` bound. -/
def cImplBound : Container := Bind New (Val.prim (.impl 1) 3)

/-- Witness for C4 as amended: the unexported untagged field is left
alone on the empty container; the exported untagged field fails on the
empty container and is filled from `cImplBound` (value of `impl 1`,
found through the interface fallback scan). -/
theorem c4_untagged_fields_amended_witness :
    resolve 5 New (Val.ptrV (zeroVal (.strct 2))) =
      .ok (Val.ptrV (zeroVal (.strct 2))) New ∧
    resolve 5 New (Val.ptrV (zeroVal (.strct 1))) =
      .err .valueNotFound New ∧
    resolve 5 cImplBound (Val.ptrV (zeroVal (.strct 1))) =
      .ok (Val.ptrV (.strctV 1 [Val.prim (.impl 1) 3])) cImplBound := by
  refine ⟨?_, ?_, ?_⟩
  · exact (c4_untagged_fields_amended New New 2 .valueNotFound
      (Val.prim .int 0)).1
  · exact (c4_untagged_fields_amended New New 2 .valueNotFound
      (Val.prim .int 0)).2.1 rfl
  · exact (c4_untagged_fields_amended cImplBound cImplBound 2
      .valueNotFound (Val.prim (.impl 1) 3)).2.2 rfl

end Ioc

namespace Ioc

/-! ## Claim C8 — implicit construction -/

theorem zeroVal_typeOf (t : Ty) : (zeroVal t).typeOf = t := by
  cases t <;> rfl

theorem wrapPtr_typeOf_congr (d : Nat) (w w2 : Val)
    (h : w.typeOf = w2.typeOf) :
    (wrapPtr d w).typeOf = (wrapPtr d w2).typeOf := by
  induction d with
  | zero => exact h
  | succ k ih => simp [wrapPtr, Val.typeOf, ih]

theorem typeOf_wrap_strip :
    ∀ (v : Val), (wrapPtr (ptrDepth v) (stripPtr v)).typeOf = v.typeOf
  | .prim _ _ => rfl
  | .strctV _ _ => rfl
  | .goErr _ => rfl
  | .ptrV w => by
    simp [wrapPtr, ptrDepth, stripPtr, Val.typeOf, typeOf_wrap_strip w]

/-- A successful `resolve` returns a value of the same (runtime) type
as its input: it only rewrites struct fields under the same pointer
wrapping. -/
theorem resolve_typeOf (fuel : Nat) (c c2 : Container) (v0 v : Val)
    (h : resolve fuel c v0 = .ok v c2) : v.typeOf = v0.typeOf := by
  cases fuel with
  | zero => rw [resolve_zero] at h; cases h
  | succ n =>
    rw [resolve_succ] at h
    cases hs : stripPtr v0 with
    | strctV i fields =>
      rw [hs] at h
      simp only [] at h
      cases hr : resolveFields n c (structFields i) fields with
      | div => rw [hr] at h; cases h
      | err e c3 => rw [hr] at h; cases h
      | ok fields2 c3 =>
        rw [hr] at h
        simp only [Res.ok.injEq] at h
        rw [← h.1]
        have h1 := typeOf_wrap_strip v0
        rw [hs] at h1
        rw [← h1]
        exact wrapPtr_typeOf_congr _ _ _ rfl
    | prim t2 n2 => rw [hs] at h; cases h
    | ptrV w => rw [hs] at h; cases h
    | goErr e2 => rw [hs] at h; cases h

/-- C8 counterexample: on the empty container, `Get` of the struct
type `strct 0` constructs and returns `reflect.New(t)` — a value of
type POINTER to `strct 0`, not of type `strct 0` itself as the claim
states (the source marks this with a TODO at part_003 line 174). -/
theorem c8_get_returns_pointer_counterexample :
    Get 10 New (some (.strct 0)) = .ok (Val.ptrV (Val.strctV 0 [])) New ∧
    (Val.ptrV (Val.strctV 0 [])).typeOf = Ty.ptr (.strct 0) ∧
    Ty.ptr (.strct 0) ≠ Ty.strct 0 :=
  ⟨rfl, rfl, by decide⟩

/-- C8 as amended: on a container with no bindings and no parent,
implicit construction runs only for struct-kind targets (any other
kind, interfaces included, fails with ValueNotFound); for a struct
kind it allocates the zero value, applies struct-field injection
through `resolve`, and on success returns the constructed instance AS
A POINTER: a value of type `*T`, not `T`. -/
theorem c8_implicit_construction_amended (t : Ty) (name : String)
    (fuel : Nat) (c c2 : Container) (v : Val) (hi : c.instances = [])
    (hf : c.factories = []) (hp : c.parent = none) :
    (t.kindIsStruct = false →
      get (fuel + 3) c name (some t) = .err .valueNotFound c) ∧
    (t.kindIsStruct = true →
      resolve (fuel + 1) c (Val.ptrV (zeroVal t)) = .ok v c2 →
      get (fuel + 3) c name (some t) = .ok v c2 ∧ v.typeOf = .ptr t) := by
  obtain ⟨p, facs, insts⟩ := c
  simp only [Container.instances, Container.factories, Container.parent]
    at hi hf hp
  subst hi; subst hf; subst hp
  have hred : get (fuel + 3) (Container.mk none [] []) name (some t) =
      (if t.kindIsStruct then
        match resolve (fuel + 1) (Container.mk none [] [])
            (Val.ptrV (zeroVal t)) with
        | .div => .div
        | .err e c3 => .err e c3
        | .ok rv c3 => .ok rv c3
      else .err .valueNotFound (Container.mk none [] [])) := rfl
  refine ⟨fun hns => ?_, fun hs hres => ?_⟩
  · rw [hred, if_neg (by simp [hns])]
  · refine ⟨by rw [hred, if_pos (by simp [hs]), hres], ?_⟩
    have h1 := resolve_typeOf _ _ _ _ _ hres
    rw [h1]
    simp [Val.typeOf, zeroVal_typeOf]

/-- Witness for C8 as amended: `iface 0` is not constructed
(ValueNotFound); `strct 0` resolves to the zero struct behind a
pointer of type `ptr (strct 0)`. -/
theorem c8_implicit_construction_amended_witness :
    get 4 New ("") (some (.iface 0)) = .err .valueNotFound New ∧
    get 4 New ("") (some (.strct 0)) =
      .ok (Val.ptrV (Val.strctV 0 [])) New ∧
    (Val.ptrV (Val.strctV 0 [])).typeOf = Ty.ptr (.strct 0) := by
  refine ⟨?_, ?_, ?_⟩
  · exact (c8_implicit_construction_amended (.iface 0) ("") 1 New New
      (Val.prim .int 0) rfl rfl rfl).1 rfl
  · exact ((c8_implicit_construction_amended (.strct 0) ("") 1 New New
      (Val.ptrV (Val.strctV 0 [])) rfl rfl rfl).2 rfl rfl).1
  · exact ((c8_implicit_construction_amended (.strct 0) ("") 1 New New
      (Val.ptrV (Val.strctV 0 [])) rfl rfl rfl).2 rfl rfl).2

end Ioc

namespace Ioc

/-! ## Claim C5 — naming as a strict partition -/

/-- `func() []int { ... }`, for registration under the empty name. -/
def fSlice : GoFunc := ⟨[], [.sliceInt], fun _ => [.prim .sliceInt 7]⟩

/-- The binding `Factory(fSlice)` creates. -/
def bSlice : Binding := ⟨("") , .sliceInt, fSlice, false⟩

/-- A container whose only registration is `fSlice` under the empty
name. -/
def cSlice : Container := .mk none [(.sliceInt, [(("") , bSlice)])] []

/-- C5 counterexample: the factory fallback scan (part_003 line 143)
looks bindings up under the EMPTY name, not under the requested name,
so `NamedGet("x", IntSlice)` IS satisfied by a factory registered only
under the empty (default) name for the assignable other type `[]int` —
refuting the claim that the fallback scan is keyed on that same
name and that a named request never falls back to an empty-name-only
binding. -/
theorem c5_named_get_uses_unnamed_factory_counterexample :
    NamedFactory New ("") (.fn fSlice) [] = .ok (none, cSlice) ∧
    NamedGet 10 cSlice ("x") (some .defSliceInt) =
      .ok (Val.prim .sliceInt 7) cSlice :=
  ⟨rfl, rfl⟩

/-- Steps 3-6 of `get` on a container with no factories and no parent
can only return a value stored in the instance maps under the request
name (the instance fallback scan is keyed on that same name, and a
non-struct target is not implicitly constructed). -/
theorem getSteps3to6_instances_only (n : Nat) (c c2 : Container)
    (name : String) (t : Ty) (v : Val) (hfac : c.factories = [])
    (hpar : c.parent = none) (hns : t.kindIsStruct = false)
    (hok : getSteps3to6At n c name t = .ok v c2) :
    ∃ rt values, (rt, values) ∈ c.instances ∧ findM values name = some v := by
  cases n with
  | zero => rw [getSteps3to6_zero] at hok; cases hok
  | succ m =>
    rw [getSteps3to6_succ] at hok
    cases h3 : scanInstances c.instances name t with
    | some val =>
      rw [h3] at hok
      simp only [Res.ok.injEq] at hok
      obtain ⟨rt, values, hmem, hfind⟩ := scanInstances_mem _ _ _ _ h3
      exact ⟨rt, values, hmem, hfind.trans (congrArg some hok.1)⟩
    | none =>
      rw [h3, hfac] at hok
      simp only [] at hok
      cases m with
      | zero => rw [scanFactories_zero] at hok; cases hok
      | succ k =>
        rw [scanFactories_succ] at hok
        simp only [] at hok
        rw [hpar] at hok
        simp only [hns, Bool.false_eq_true, if_false] at hok
        cases hok

/-- C5 as amended: the exact-match steps and the instance fallback
scan of `NamedGet` are keyed on the requested name, so on a container
with only value bindings (no factories) and no parent, a named request
for a non-struct type only ever returns a value stored under that very
name; the factory fallback scan, however, is keyed on the EMPTY name
(see the counterexample), so a factory of an assignable other type
registered under the default name can serve a named request. -/
theorem c5_instance_lookups_keyed_on_name (fuel : Nat) (c c2 : Container)
    (name : String) (t : Ty) (v : Val) (_hname : name ≠ (""))
    (hfac : c.factories = []) (hpar : c.parent = none)
    (hns : t.kindIsStruct = false)
    (hok : get fuel c name (some t) = .ok v c2) :
    ∃ rt values, (rt, values) ∈ c.instances ∧ findM values name = some v := by
  cases fuel with
  | zero => rw [get_zero] at hok; cases hok
  | succ n =>
    rw [get_succ] at hok
    cases h1 : findM c.instances t with
    | some values =>
      rw [h1] at hok
      simp only [] at hok
      cases h2 : findM values name with
      | some w =>
        rw [h2] at hok
        simp only [Val.isValid, if_true, Res.ok.injEq] at hok
        exact ⟨t, values, findM_mem _ _ _ h1,
          h2.trans (congrArg some hok.1)⟩
      | none =>
        rw [h2, hfac] at hok
        simp only [findM] at hok
        exact getSteps3to6_instances_only n c c2 name t v hfac hpar hns hok
    | none =>
      rw [h1, hfac] at hok
      simp only [findM] at hok
      exact getSteps3to6_instances_only n c c2 name t v hfac hpar hns hok

/-- A container with `int` value 1 bound under name "x" only. -/
def cNamedOnly : Container := .mk none [] [(.int, [(("x") , Val.prim .int 1)])]

/-- Witness for C5 as amended at a concrete container: the successful
named lookup indeed came from an entry stored under the name "x". -/
theorem c5_instance_lookups_keyed_on_name_witness :
    ∃ rt values, (rt, values) ∈ cNamedOnly.instances ∧
      findM values ("x") = some (Val.prim .int 1) :=
  c5_instance_lookups_keyed_on_name 1 cNamedOnly cNamedOnly ("x") .int
    (Val.prim .int 1) (by decide) rfl rfl rfl rfl

end Ioc
